import Mathlib

/-!
# Verification of the kitium-ai/secrets core against its specification

Shallow embedding of the secret-management service: crypto token format,
domain model, policy enforcement, authorization, lifecycle manager,
serialization, envelope key manager, ABAC evaluator, session manager and
rotation scheduler, with theorems settling the specification claims.

Conventions of the embedding:
* timestamps are naturals (milliseconds since epoch);
* byte strings (secret values, ciphertexts, IVs) are `List Nat`
  (UTF-16 code units / bytes); human-readable names, tenants, roles and
  identifiers stay `String`;
* JavaScript exceptions become `Except` values;
* sources of randomness (IVs, generated identifiers, clocks) are passed
  as explicit arguments.
-/

namespace Secrets

/-- Errors surfaced by the core, classified as in the specification. -/
inductive SecretError where
  | tenantMismatch
  | missingRole (role : String)
  | policyLength
  | policyForbidden (pattern : List Nat)
  | notFound
  | expired
  | noHandler
  | noVersions
  deriving DecidableEq, Repr

/-- Errors surfaced by the encryption layer. -/
inductive CryptoError where
  | integrity
  | keyNotFound
  | noActiveKey
  deriving DecidableEq, Repr

/-! ## JavaScript `Map` on string keys

`Map.get` / `Map.set` as used by the envelope key manager and the session
manager, modelled on association lists (first binding wins, `set`
overwrites in place or appends). -/

/-- `Map.get`: first binding for the key, if any. -/
def jsMapGet {α : Type} (l : List (String × α)) (k : String) : Option α :=
  (l.find? (fun p => p.1 == k)).map (·.2)

/-- `Map.set`: replace the (unique) binding for the key in place, or append
a fresh binding.  JavaScript `Map` keys are unique, so replacing the first
occurrence models `set` exactly. -/
def jsMapSet {α : Type} : List (String × α) → String → α → List (String × α)
  | [], k, v => [(k, v)]
  | p :: rest, k, v =>
    if p.1 == k then (k, v) :: rest else p :: jsMapSet rest k v

theorem jsMapGet_cons_pos {α : Type} {p : String × α} {rest : List (String × α)}
    {k : String} (h : p.1 = k) : jsMapGet (p :: rest) k = some p.2 := by
  simp [jsMapGet, List.find?_cons_of_pos, h]

theorem jsMapGet_cons_neg {α : Type} {p : String × α} {rest : List (String × α)}
    {k : String} (h : p.1 ≠ k) : jsMapGet (p :: rest) k = jsMapGet rest k := by
  simp only [jsMapGet]
  rw [List.find?_cons_of_neg]
  simpa using h

theorem jsMapGet_jsMapSet {α : Type} (l : List (String × α)) (k k' : String) (v : α) :
    jsMapGet (jsMapSet l k v) k' = if k' = k then some v else jsMapGet l k' := by
  induction l with
  | nil =>
    by_cases h : k' = k
    · simp [jsMapSet, h, jsMapGet_cons_pos]
    · rw [if_neg h]
      show jsMapGet [(k, v)] k' = jsMapGet [] k'
      rw [jsMapGet_cons_neg (fun hh : k = k' => h hh.symm)]
  | cons p rest ih =>
    by_cases hpk : p.1 = k
    · rw [show jsMapSet (p :: rest) k v = (k, v) :: rest by
        simp [jsMapSet, hpk]]
      by_cases hk' : k' = k
      · rw [if_pos hk', jsMapGet_cons_pos hk'.symm]
      · rw [if_neg hk', jsMapGet_cons_neg (fun hh : k = k' => hk' hh.symm),
          jsMapGet_cons_neg (hpk ▸ fun hh : k = k' => hk' hh.symm)]
    · rw [show jsMapSet (p :: rest) k v = p :: jsMapSet rest k v by
        simp [jsMapSet, hpk]]
      by_cases hpk' : p.1 = k'
      · have hk' : ¬ k' = k := fun hh => hpk (hpk' ▸ hh ▸ rfl)
        rw [if_neg hk', jsMapGet_cons_pos hpk', jsMapGet_cons_pos hpk']
      · rw [jsMapGet_cons_neg hpk', ih]
        by_cases hk' : k' = k
        · rw [if_pos hk', if_pos hk']
        · rw [if_neg hk', if_neg hk', jsMapGet_cons_neg hpk']

/-! ## Crypto primitives (`src/crypto.ts`)

The repository wraps `node:crypto`'s AES-256-GCM: `encrypt` derives a key
from the master key by SHA-256, draws a random 96-bit IV and returns
`base64(iv[12] || authTag[16] || ciphertext)`; `decrypt` splits the token,
sets the auth tag and fails with an integrity error when verification
fails.  The token splitting and key-derivation plumbing are embedded
exactly; the external primitives are modelled as follows. -/

/-- Injective encoding of a list of naturals into a natural. -/
def encodeList : List Nat → Nat
  | [] => 0
  | x :: xs => Nat.pair x (encodeList xs) + 1

theorem encodeList_injective : Function.Injective encodeList := by
  intro a
  induction a with
  | nil =>
    intro b h
    cases b with
    | nil => rfl
    | cons y ys => simp [encodeList] at h
  | cons x xs ih =>
    intro b h
    cases b with
    | nil => simp [encodeList] at h
    | cons y ys =>
      simp only [encodeList, Nat.add_right_cancel_iff] at h
      obtain ⟨h1, h2⟩ := Nat.pair_eq_pair.mp h
      rw [h1, ih h2]

/-- Modelled from the spec: `crypto.createHash('sha256')` (external to the
repository).  The digest is idealized as an injective function of the
input string — the collision-resistance idealization under which the
spec's "mismatched key ⟹ integrity error" is stated. -/
def sha256Model (s : String) : Nat :=
  encodeList (s.data.map Char.toNat)

theorem sha256Model_injective : Function.Injective sha256Model := by
  intro a b h
  have hdata : a.data.map Char.toNat = b.data.map Char.toNat :=
    encodeList_injective h
  have hchars : a.data = b.data := by
    apply List.map_injective_iff.mpr _ hdata
    intro c₁ c₂ hc
    exact Char.ext (UInt32.ext (by simpa [Char.toNat] using hc))
  cases a; cases b; exact congrArg String.mk hchars

/-- `deriveKey` of `src/crypto.ts`: SHA-256 of the UTF-8 master key. -/
def deriveKey (masterKey : String) : Nat :=
  sha256Model masterKey

/-- Modelled from the spec: the AES-256-GCM keystream block at index `i`
for a derived key and an (encoded) IV.  GCM encrypts in counter mode, so
ciphertext bytes are plaintext bytes XORed with a keystream determined by
key and IV; the keystream itself is idealized. -/
def keystreamAt (key ivCode i : Nat) : Nat :=
  Nat.pair key (Nat.pair ivCode i)

/-- XOR a byte list against the keystream, starting at block index `i`.
Applying it twice with the same key and IV restores the input. -/
def xorKeystream (key ivCode : Nat) : Nat → List Nat → List Nat
  | _, [] => []
  | i, b :: bs => (b ^^^ keystreamAt key ivCode i) :: xorKeystream key ivCode (i + 1) bs

theorem xorKeystream_involutive (key ivCode : Nat) :
    ∀ (i : Nat) (bs : List Nat),
      xorKeystream key ivCode i (xorKeystream key ivCode i bs) = bs := by
  intro i bs
  induction bs generalizing i with
  | nil => rfl
  | cons b rest ih =>
    simp only [xorKeystream, List.cons.injEq]
    exact ⟨Nat.xor_cancel_right _ _, ih (i + 1)⟩

/-- Modelled from the spec: the 128-bit GCM authentication tag (external
primitive), idealized as a tag that verifies exactly when key, IV and
ciphertext all match. -/
def authTagFn (key : Nat) (iv ct : List Nat) : List Nat :=
  Nat.pair key (Nat.pair (encodeList iv) (encodeList ct)) :: List.replicate 15 0

theorem authTagFn_length (key : Nat) (iv ct : List Nat) :
    (authTagFn key iv ct).length = 16 := by
  simp [authTagFn]

theorem authTagFn_key_injective {k₁ k₂ : Nat} {iv ct : List Nat}
    (h : authTagFn k₁ iv ct = authTagFn k₂ iv ct) : k₁ = k₂ := by
  simp only [authTagFn, List.cons.injEq] at h
  exact (Nat.pair_eq_pair.mp h.1).1

/-- `encrypt(value, masterKey)` of `src/crypto.ts`: derive the key, draw
an IV (passed explicitly here), and produce `iv ++ authTag ++ ciphertext`.
The base64 transport encoding is the identity on the raw bytes. -/
def encrypt (value : List Nat) (masterKey : String) (iv : List Nat) : List Nat :=
  let key := deriveKey masterKey
  let ciphertext := xorKeystream key (encodeList iv) 0 value
  iv ++ authTagFn key iv ciphertext ++ ciphertext

/-- `decrypt(token, masterKey)` of `src/crypto.ts`: split the token as
`subarray(0,12)`, `subarray(12,28)`, `subarray(28)`, re-derive the key,
verify the authentication tag and decrypt; a failed tag check is the
*integrity* error. -/
def decrypt (token : List Nat) (masterKey : String) : Except CryptoError (List Nat) :=
  let iv := token.take 12
  let tag := (token.drop 12).take 16
  let ciphertext := token.drop 28
  let key := deriveKey masterKey
  if tag = authTagFn key iv ciphertext then
    .ok (xorKeystream key (encodeList iv) 0 ciphertext)
  else
    .error .integrity

theorem encrypt_token_split (value : List Nat) (masterKey : String) (iv : List Nat)
    (hiv : iv.length = 12) :
    (encrypt value masterKey iv).take 12 = iv ∧
    ((encrypt value masterKey iv).drop 12).take 16 =
      authTagFn (deriveKey masterKey) iv
        (xorKeystream (deriveKey masterKey) (encodeList iv) 0 value) ∧
    (encrypt value masterKey iv).drop 28 =
      xorKeystream (deriveKey masterKey) (encodeList iv) 0 value := by
  set key := deriveKey masterKey
  set ct := xorKeystream key (encodeList iv) 0 value with hct
  have htag : (authTagFn key iv ct).length = 16 := authTagFn_length key iv ct
  refine ⟨?_, ?_, ?_⟩
  · have := List.take_left iv (authTagFn key iv ct ++ ct)
    simpa [encrypt, hiv] using this
  · have hdrop : (encrypt value masterKey iv).drop 12 = authTagFn key iv ct ++ ct := by
      have := List.drop_left iv (authTagFn key iv ct ++ ct)
      simpa [encrypt, hiv] using this
    rw [hdrop]
    have := List.take_left (authTagFn key iv ct) ct
    simpa [htag] using this
  · have hdrop : (encrypt value masterKey iv).drop 12 = authTagFn key iv ct ++ ct := by
      have := List.drop_left iv (authTagFn key iv ct ++ ct)
      simpa [encrypt, hiv] using this
    have h28 : (encrypt value masterKey iv).drop 28 =
        ((encrypt value masterKey iv).drop 12).drop 16 := by
      rw [List.drop_drop]
    rw [h28, hdrop]
    have := List.drop_left (authTagFn key iv ct) ct
    simpa [htag] using this

/-- Round trip with the matching key: decrypting a freshly produced token
with the same master key recovers the plaintext. -/
theorem decrypt_encrypt_same_key (value : List Nat) (masterKey : String)
    (iv : List Nat) (hiv : iv.length = 12) :
    decrypt (encrypt value masterKey iv) masterKey = .ok value := by
  obtain ⟨h1, h2, h3⟩ := encrypt_token_split value masterKey iv hiv
  simp only [decrypt, h1, h2, h3, if_pos rfl]
  simp [xorKeystream_involutive]

/-- Mismatched key: decrypting the token with any other master key fails
the authentication-tag check and yields the *integrity* error. -/
theorem decrypt_encrypt_other_key (value : List Nat) (masterKey otherKey : String)
    (iv : List Nat) (hiv : iv.length = 12) (hne : otherKey ≠ masterKey) :
    decrypt (encrypt value masterKey iv) otherKey = .error .integrity := by
  obtain ⟨h1, h2, h3⟩ := encrypt_token_split value masterKey iv hiv
  simp only [decrypt, h1, h2, h3]
  rw [if_neg]
  intro htag
  exact hne (sha256Model_injective (authTagFn_key_injective htag.symm))

/-- C1: for every plaintext and master key, `decrypt(encrypt(x, k), k) = x`,
and for every other master key `k' ≠ k`, `decrypt(encrypt(x, k), k')` fails
with the *integrity* error. -/
theorem claim_c1_encrypt_decrypt (value : List Nat) (masterKey otherKey : String)
    (iv : List Nat) (hiv : iv.length = 12) (hne : otherKey ≠ masterKey) :
    decrypt (encrypt value masterKey iv) masterKey = .ok value ∧
    decrypt (encrypt value masterKey iv) otherKey = .error .integrity :=
  ⟨decrypt_encrypt_same_key value masterKey iv hiv,
   decrypt_encrypt_other_key value masterKey otherKey iv hiv hne⟩

/-- Witness for C1 at a concrete plaintext, master key and IV. -/
theorem claim_c1_encrypt_decrypt_witness :
    decrypt (encrypt [7, 200, 13] "master" [0, 1, 2, 3, 4, 5, 6, 7, 8, 9, 10, 11])
        "master" = .ok [7, 200, 13] ∧
    decrypt (encrypt [7, 200, 13] "master" [0, 1, 2, 3, 4, 5, 6, 7, 8, 9, 10, 11])
        "other" = .error .integrity :=
  claim_c1_encrypt_decrypt [7, 200, 13] "master" "other"
    [0, 1, 2, 3, 4, 5, 6, 7, 8, 9, 10, 11] (by decide) (by decide)

/-! ## Domain model (`src/domain.ts`) -/

/-- `Policy` of `src/domain.ts`. -/
structure Policy where
  name : String
  description : String
  rotationDays : Nat := 90
  minLength : Nat := 16
  forbidPatterns : Option (List (List Nat)) := none
  allowedCidrs : Option (List String) := none
  deriving DecidableEq, Repr

/-- `Identity` of `src/domain.ts`. -/
structure Identity where
  subject : String
  roles : List String
  tenant : String := "default"
  deriving DecidableEq, Repr

/-- `Identity.hasRole`: literal membership of the role name. -/
def Identity.hasRole (actor : Identity) (role : String) : Bool :=
  actor.roles.contains role

/-- `SecretVersion` of `src/domain.ts`; `value` is the in-memory plaintext. -/
structure SecretVersion where
  version : Nat
  createdAt : Nat
  value : List Nat
  checksum : Nat
  createdBy : String
  expiresAt : Option Nat := none
  deriving DecidableEq, Repr

/-- `SecretVersion.isExpired`: strictly past the expiry instant. -/
def SecretVersion.isExpired (v : SecretVersion) (now : Nat) : Bool :=
  match v.expiresAt with
  | some e => decide (e < now)
  | none => false

/-- `Secret` of `src/domain.ts`.  The rotation handler is a stored closure
producing the next value; it is modelled by the value it produces. -/
structure Secret where
  id : String
  name : String
  tenant : String
  policy : Policy
  createdAt : Nat
  createdBy : String
  versions : List SecretVersion
  description : Option String := none
  rotationHandler : Option (List Nat) := none
  deriving DecidableEq, Repr

/-- `Secret.latestVersion`: reduce over the whole version list starting
from the first element, keeping the version with the greater number;
throws when the secret has no versions. -/
def Secret.latestVersion (s : Secret) : Except SecretError SecretVersion :=
  match s.versions with
  | [] => .error .noVersions
  | first :: _ =>
    .ok (s.versions.foldl
      (fun latest v => if v.version > latest.version then v else latest) first)

/-- `Secret.nextVersionNumber`: `reduce(Math.max, 0) + 1`. -/
def Secret.nextVersionNumber (s : Secret) : Nat :=
  s.versions.foldl (fun m v => max m v.version) 0 + 1

/-- `checksum(value)` of `src/crypto.ts` applied to a code-unit list:
SHA-256 hex digest, idealized as the injective list encoding. -/
def checksum (value : List Nat) : Nat :=
  encodeList value

/-! ## Policy enforcer and role gate (`src/authz.ts`) -/

/-- JavaScript `String.prototype.includes`: the needle occurs as a
contiguous substring (every string includes the empty string). -/
def jsIncludes (s sub : List Nat) : Bool :=
  match s with
  | [] => sub.isEmpty
  | c :: rest => sub.isPrefixOf (c :: rest) || jsIncludes rest sub

theorem jsIncludes_iff_substring (s sub : List Nat) :
    jsIncludes s sub = true ↔ sub <:+: s := by
  induction s with
  | nil =>
    simp [jsIncludes, List.isEmpty_iff, List.infix_nil]
  | cons c rest ih =>
    simp only [jsIncludes, Bool.or_eq_true, ih, List.isPrefixOf_iff_prefix]
    constructor
    · rintro (h | h)
      · exact h.isInfix
      · exact List.infix_cons h
    · intro h
      rcases List.infix_cons_iff.mp h with h | h
      · exact Or.inl h
      · exact Or.inr h

/-- The forbidden-pattern loop of `enforcePolicy`: a falsy (empty) pattern
is skipped; the first non-empty pattern included in the value raises the
*policy-violation* error. -/
def checkPatterns (value : List Nat) : List (List Nat) → Except SecretError Unit
  | [] => .ok ()
  | p :: rest =>
    if p ≠ [] && jsIncludes value p then .error (.policyForbidden p)
    else checkPatterns value rest

/-- `enforcePolicy(value, policy)` of `src/authz.ts`. -/
def enforcePolicy (value : List Nat) (policy : Policy) : Except SecretError Unit :=
  if value.length < policy.minLength then .error .policyLength
  else
    match policy.forbidPatterns with
    | none => .ok ()
    | some pats => checkPatterns value pats

/-- `allowAction(actor, tenant, requiredRole)` of `src/authz.ts`: tenant
check first, then the role check. -/
def allowAction (actor : Identity) (tenant : String) (requiredRole : String) :
    Except SecretError Unit :=
  if actor.tenant ≠ tenant then .error .tenantMismatch
  else if !actor.hasRole requiredRole then .error (.missingRole requiredRole)
  else .ok ()

theorem checkPatterns_ne_ok_iff (value : List Nat) (pats : List (List Nat)) :
    checkPatterns value pats ≠ .ok () ↔
      ∃ p ∈ pats, p ≠ [] ∧ p <:+: value := by
  induction pats with
  | nil => simp [checkPatterns]
  | cons p rest ih =>
    by_cases hp : p ≠ [] && jsIncludes value p
    · simp only [checkPatterns, if_pos hp]
      simp only [Bool.and_eq_true, decide_eq_true_eq, bne_iff_ne] at hp
      constructor
      · intro _
        exact ⟨p, List.mem_cons_self p rest,
          by simpa using hp.1, (jsIncludes_iff_substring value p).mp hp.2⟩
      · intro _
        simp
    · simp only [checkPatterns, if_neg hp, ih]
      simp only [Bool.and_eq_true, not_and_or, Bool.not_eq_true,
        decide_eq_false_iff_not] at hp
      constructor
      · rintro ⟨q, hq, hqne, hqinf⟩
        exact ⟨q, List.mem_cons_of_mem p hq, hqne, hqinf⟩
      · rintro ⟨q, hq, hqne, hqinf⟩
        rcases List.mem_cons.mp hq with rfl | hq'
        · exfalso
          rcases hp with hp | hp
          · simp at hp
            exact hqne hp
          · rw [(jsIncludes_iff_substring value q).mpr hqinf] at hp
            simp at hp
        · exact ⟨q, hq', hqne, hqinf⟩

theorem checkPatterns_error_shape (value : List Nat) (pats : List (List Nat))
    (e : SecretError) (h : checkPatterns value pats = .error e) :
    ∃ p, e = .policyForbidden p := by
  induction pats with
  | nil => simp [checkPatterns] at h
  | cons p rest ih =>
    by_cases hp : p ≠ [] && jsIncludes value p
    · simp only [checkPatterns, if_pos hp, Except.error.injEq] at h
      exact ⟨p, h.symm⟩
    · simp only [checkPatterns, if_neg hp] at h
      exact ih h

/-- C7: `enforce_policy` is pure and fails (with a *policy-violation*
error) exactly when the value is shorter than `min_length` or some
non-empty forbidden pattern occurs in it as a substring. -/
theorem claim_c7_enforce_policy (value : List Nat) (policy : Policy) :
    (enforcePolicy value policy ≠ .ok () ↔
      value.length < policy.minLength ∨
      ∃ pats p, policy.forbidPatterns = some pats ∧
        p ∈ pats ∧ p ≠ [] ∧ p <:+: value) ∧
    (∀ e, enforcePolicy value policy = .error e →
      e = .policyLength ∨ ∃ p, e = .policyForbidden p) := by
  constructor
  · by_cases hlen : value.length < policy.minLength
    · simp [enforcePolicy, hlen]
    · simp only [enforcePolicy, if_neg hlen]
      cases hpat : policy.forbidPatterns with
      | none => simp [hlen]
      | some pats =>
        rw [checkPatterns_ne_ok_iff]
        constructor
        · rintro ⟨p, hp, hpne, hpinf⟩
          exact Or.inr ⟨pats, p, rfl, hp, hpne, hpinf⟩
        · rintro (h | ⟨pats', p, hpats', hp, hpne, hpinf⟩)
          · exact absurd h hlen
          · obtain rfl := Option.some.inj hpats'
            exact ⟨p, hp, hpne, hpinf⟩
  · intro e he
    by_cases hlen : value.length < policy.minLength
    · simp only [enforcePolicy, if_pos hlen, Except.error.injEq] at he
      exact Or.inl he.symm
    · simp only [enforcePolicy, if_neg hlen] at he
      cases hpat : policy.forbidPatterns with
      | none => rw [hpat] at he; simp at he
      | some pats =>
        rw [hpat] at he
        exact Or.inr (checkPatterns_error_shape value pats e he)

/-- Witness for C7: a value below the minimum length is rejected. -/
theorem claim_c7_enforce_policy_witness :
    enforcePolicy [1, 2, 3] { name := "p", description := "d" } ≠ .ok () :=
  (claim_c7_enforce_policy [1, 2, 3] { name := "p", description := "d" }).1.mpr
    (Or.inl (by decide))

/-! ## Lifecycle manager (`src/manager.ts`)

Each operation is embedded as a pure function: the store lookup becomes an
explicit `Option Secret` argument, the clock and the generated secret id
become arguments, and audit/observation/event emission (side effects with
no bearing on the returned value) are elided. -/

/-- `ttlSeconds ? new Date(now + ttlSeconds * 1000) : undefined` — note
that a TTL of `0` is falsy in JavaScript and yields no expiry. -/
def jsTtlExpiry (ttlSeconds : Option Nat) (now : Nat) : Option Nat :=
  match ttlSeconds with
  | some t => if t ≠ 0 then some (now + t * 1000) else none
  | none => none

/-- `SecretManager.getOrRaise`: fail *not-found* when the store draws a
blank. -/
def getOrRaise (stored : Option Secret) : Except SecretError Secret :=
  match stored with
  | none => .error .notFound
  | some s => .ok s

/-- `SecretManager.createSecret`: enforce the policy on the value, then
require the `admin` role, then build version 1 and the secret. -/
def createSecret (name : String) (value : List Nat) (policy : Policy)
    (actor : Identity) (description : Option String)
    (rotationHandler : Option (List Nat)) (ttlSeconds : Option Nat)
    (secretId : String) (now : Nat) : Except SecretError Secret := do
  enforcePolicy value policy
  allowAction actor actor.tenant "admin"
  let expiresAt := jsTtlExpiry ttlSeconds now
  let version : SecretVersion :=
    { version := 1, createdAt := now, value := value, checksum := checksum value,
      createdBy := actor.subject, expiresAt := expiresAt }
  pure { id := secretId, name := name, tenant := actor.tenant, policy := policy,
         createdAt := now, createdBy := actor.subject, versions := [version],
         description := description, rotationHandler := rotationHandler }

/-- `SecretManager.putSecret`: load or fail *not-found*, require `writer`
in the secret's tenant, enforce the policy, then append the next
version. -/
def putSecret (stored : Option Secret) (value : List Nat) (actor : Identity)
    (ttlSeconds : Option Nat) (now : Nat) : Except SecretError Secret := do
  let secret ← getOrRaise stored
  allowAction actor secret.tenant "writer"
  enforcePolicy value secret.policy
  let expiresAt := jsTtlExpiry ttlSeconds now
  let version : SecretVersion :=
    { version := secret.nextVersionNumber, createdAt := now, value := value,
      checksum := checksum value, createdBy := actor.subject,
      expiresAt := expiresAt }
  pure { secret with versions := secret.versions ++ [version] }

/-- `SecretManager.rotate`: load or fail *not-found*, require `writer`,
fail *no-handler* without a rotation handler, enforce the policy on the
produced value, then append it as the next version (no expiry). -/
def rotate (stored : Option Secret) (actor : Identity) (now : Nat) :
    Except SecretError Secret := do
  let secret ← getOrRaise stored
  allowAction actor secret.tenant "writer"
  match secret.rotationHandler with
  | none => .error .noHandler
  | some newValue => do
    enforcePolicy newValue secret.policy
    let version : SecretVersion :=
      { version := secret.nextVersionNumber, createdAt := now, value := newValue,
        checksum := checksum newValue, createdBy := actor.subject }
    pure { secret with versions := secret.versions ++ [version] }

/-- `SecretManager.getSecret`: load or fail *not-found*, require `reader`,
fail *expired* when the latest version is past its expiry. -/
def getSecret (stored : Option Secret) (actor : Identity) (now : Nat) :
    Except SecretError Secret := do
  let secret ← getOrRaise stored
  allowAction actor secret.tenant "reader"
  let latest ← secret.latestVersion
  if latest.isExpired now then .error .expired
  else pure secret

/-- `SecretManager.listSecrets`: require `reader` in the actor's own
tenant, then return the store's tenant-filtered listing. -/
def listSecretsOp (actor : Identity) (tenantSecrets : List Secret) :
    Except SecretError (List Secret) := do
  allowAction actor actor.tenant "reader"
  pure tenantSecrets

/-- `SecretManager.deleteSecret`: load or fail *not-found*, require
`admin`; the store removal itself is an elided side effect. -/
def deleteSecretOp (stored : Option Secret) (actor : Identity) :
    Except SecretError Unit := do
  let secret ← getOrRaise stored
  allowAction actor secret.tenant "admin"
  pure ()

/-! ## Stored-secret serialization (`src/store/serialization.ts`)

All store backends (file, S3, GCP, PostgreSQL) persist secrets through
`toStoredSecret` / `fromStoredSecret`.  `StoredSecretVersion` mirrors the
TypeScript type exactly — it has **no** `expiresAt` field. -/

/-- `StoredSecretVersion`: the persisted shape of a version.  `value` is
the ciphertext token. -/
structure StoredSecretVersion where
  version : Nat
  createdAt : Nat
  value : List Nat
  checksum : Nat
  createdBy : String
  deriving DecidableEq, Repr

/-- `StoredPolicy`: the persisted shape of a policy. -/
structure StoredPolicy where
  name : String
  description : String
  rotationDays : Nat
  minLength : Nat
  forbidPatterns : Option (List (List Nat))
  allowedCidrs : Option (List String)
  deriving DecidableEq, Repr

/-- `StoredSecret`: the persisted shape of a secret. -/
structure StoredSecret where
  id : String
  name : String
  tenant : String
  policy : StoredPolicy
  createdAt : Nat
  createdBy : String
  versions : List StoredSecretVersion
  description : Option String
  deriving DecidableEq, Repr

/-- `toStoredSecret(secret, masterKey)`: encrypt each version's plaintext
(the fresh random IV for the i-th version is supplied by `ivs`).  The
persisted version record carries no expiry and the secret no rotation
handler. -/
def toStoredSecret (s : Secret) (mk : String) (ivs : Nat → List Nat) : StoredSecret :=
  { id := s.id, name := s.name, tenant := s.tenant,
    policy := { name := s.policy.name, description := s.policy.description,
                rotationDays := s.policy.rotationDays,
                minLength := s.policy.minLength,
                forbidPatterns := s.policy.forbidPatterns,
                allowedCidrs := s.policy.allowedCidrs },
    createdAt := s.createdAt, createdBy := s.createdBy,
    versions := s.versions.enum.map (fun iv =>
      { version := iv.2.version, createdAt := iv.2.createdAt,
        value := encrypt iv.2.value mk (ivs iv.1), checksum := iv.2.checksum,
        createdBy := iv.2.createdBy }),
    description := s.description }

/-- Reconstruction of one version while loading: decrypt the stored
ciphertext; the rebuilt `SecretVersion` has no `expiresAt` (the
constructor call in the source passes none). -/
def fromStoredVersion (mk : String) (sv : StoredSecretVersion) :
    Except CryptoError SecretVersion := do
  let plaintext ← decrypt sv.value mk
  pure { version := sv.version, createdAt := sv.createdAt, value := plaintext,
         checksum := sv.checksum, createdBy := sv.createdBy }

/-- Sequencing of fallible version reconstruction: the first decryption
failure aborts the load (`Array.prototype.map` with a throwing callback). -/
def exceptMapList {α β : Type} (f : α → Except CryptoError β) :
    List α → Except CryptoError (List β)
  | [] => .ok []
  | a :: as => do
    let b ← f a
    let bs ← exceptMapList f as
    pure (b :: bs)

/-- `fromStoredSecret(payload, masterKey)`: rebuild the policy and decrypt
every version; a decryption failure surfaces as the *integrity* error. -/
def fromStoredSecret (p : StoredSecret) (mk : String) : Except CryptoError Secret := do
  let versions ← exceptMapList (fromStoredVersion mk) p.versions
  pure { id := p.id, name := p.name, tenant := p.tenant,
         policy := { name := p.policy.name, description := p.policy.description,
                     rotationDays := p.policy.rotationDays,
                     minLength := p.policy.minLength,
                     forbidPatterns := p.policy.forbidPatterns,
                     allowedCidrs := p.policy.allowedCidrs },
         createdAt := p.createdAt, createdBy := p.createdBy,
         versions := versions, description := p.description }

theorem fromStoredVersion_ok {mk : String} {sv : StoredSecretVersion}
    {v : SecretVersion} (h : fromStoredVersion mk sv = .ok v) :
    v.version = sv.version ∧ v.expiresAt = none := by
  cases hdec : decrypt sv.value mk with
  | error e => simp [fromStoredVersion, hdec, Bind.bind, Except.bind] at h
  | ok pt =>
    simp only [fromStoredVersion, hdec, Bind.bind, Except.bind, pure,
      Except.pure, Except.ok.injEq] at h
    rw [← h]
    exact ⟨rfl, rfl⟩

theorem exceptMapList_versions {mk : String} :
    ∀ (l : List StoredSecretVersion) (out : List SecretVersion),
      exceptMapList (fromStoredVersion mk) l = .ok out →
      out.map SecretVersion.version = l.map StoredSecretVersion.version ∧
      ∀ v ∈ out, v.expiresAt = none := by
  intro l
  induction l with
  | nil =>
    intro out h
    simp only [exceptMapList, Except.ok.injEq] at h
    subst h
    simp
  | cons a as ih =>
    intro out h
    cases ha : fromStoredVersion mk a with
    | error e => simp [exceptMapList, ha, Bind.bind, Except.bind] at h
    | ok b =>
      cases has : exceptMapList (fromStoredVersion mk) as with
      | error e => simp [exceptMapList, ha, has, Bind.bind, Except.bind] at h
      | ok bs =>
        simp only [exceptMapList, ha, has, Bind.bind, Except.bind, pure,
          Except.pure, Except.ok.injEq] at h
        subst h
        obtain ⟨hver, hexp⟩ := fromStoredVersion_ok ha
        obtain ⟨hvers, hexps⟩ := ih bs has
        refine ⟨by simp [hver, hvers], ?_⟩
        intro v hv
        rcases List.mem_cons.mp hv with rfl | hv'
        · exact hexp
        · exact hexps v hv'

theorem toStoredSecret_version_numbers (s : Secret) (mk : String)
    (ivs : Nat → List Nat) :
    (toStoredSecret s mk ivs).versions.map StoredSecretVersion.version =
      s.versions.map SecretVersion.version := by
  show (s.versions.enum.map _).map StoredSecretVersion.version = _
  rw [List.map_map]
  have h1 : StoredSecretVersion.version ∘ (fun iv : Nat × SecretVersion =>
      ({ version := iv.2.version, createdAt := iv.2.createdAt,
         value := encrypt iv.2.value mk (ivs iv.1), checksum := iv.2.checksum,
         createdBy := iv.2.createdBy } : StoredSecretVersion)) =
      SecretVersion.version ∘ Prod.snd := rfl
  rw [h1, ← List.map_map, List.enum_map_snd]

/-! ## Version monotonicity (claim C2) -/

theorem range'_snoc (s n : Nat) :
    List.range' s (n + 1) = List.range' s n ++ [s + n] := by
  induction n generalizing s with
  | zero => simp [List.range']
  | succ m ih =>
    rw [List.range'_succ, ih (s + 1), List.range'_succ]
    simp [Nat.add_assoc, Nat.add_comm, Nat.add_left_comm]

theorem foldl_max_range' (n : Nat) : (List.range' 1 n).foldl max 0 = n := by
  induction n with
  | zero => rfl
  | succ m ih =>
    rw [range'_snoc, List.foldl_append, ih]
    simp [Nat.max_def]
    omega

theorem nextVersionNumber_of_contiguous (s : Secret)
    (h : s.versions.map SecretVersion.version = List.range' 1 s.versions.length) :
    s.nextVersionNumber = s.versions.length + 1 := by
  unfold Secret.nextVersionNumber
  have hfold : s.versions.foldl (fun m v => max m v.version) 0 =
      (s.versions.map SecretVersion.version).foldl max 0 := by
    rw [List.foldl_map]
  rw [hfold, h, foldl_max_range']

/-- Secrets producible by the lifecycle manager: created, then modified by
`putSecret` / `rotate`, possibly passing through a store round trip. -/
inductive ReachableSecret : Secret → Prop where
  | created (name : String) (value : List Nat) (policy : Policy) (actor : Identity)
      (description : Option String) (rotationHandler : Option (List Nat))
      (ttlSeconds : Option Nat) (secretId : String) (now : Nat) (s : Secret) :
      createSecret name value policy actor description rotationHandler
        ttlSeconds secretId now = .ok s →
      ReachableSecret s
  | updated (s : Secret) (value : List Nat) (actor : Identity)
      (ttlSeconds : Option Nat) (now : Nat) (s' : Secret) :
      ReachableSecret s → putSecret (some s) value actor ttlSeconds now = .ok s' →
      ReachableSecret s'
  | rotated (s : Secret) (actor : Identity) (now : Nat) (s' : Secret) :
      ReachableSecret s → rotate (some s) actor now = .ok s' →
      ReachableSecret s'
  | persisted (s : Secret) (mk : String) (ivs : Nat → List Nat) (s' : Secret) :
      ReachableSecret s → fromStoredSecret (toStoredSecret s mk ivs) mk = .ok s' →
      ReachableSecret s'

theorem createSecret_ok_versions {name : String} {value : List Nat}
    {policy : Policy} {actor : Identity} {description : Option String}
    {rotationHandler : Option (List Nat)} {ttlSeconds : Option Nat}
    {secretId : String} {now : Nat} {s : Secret}
    (h : createSecret name value policy actor description rotationHandler
      ttlSeconds secretId now = .ok s) :
    s.versions.map SecretVersion.version = [1] := by
  cases henf : enforcePolicy value policy with
  | error e =>
    simp [createSecret, henf, Bind.bind, Except.bind] at h
  | ok u =>
    cases hauth : allowAction actor actor.tenant "admin" with
    | error e =>
      simp [createSecret, henf, hauth, Bind.bind, Except.bind] at h
    | ok u' =>
      simp only [createSecret, henf, hauth, Bind.bind, Except.bind, pure,
        Except.pure, Except.ok.injEq] at h
      have hv : s.versions =
          [{ version := 1, createdAt := now, value := value,
             checksum := checksum value, createdBy := actor.subject,
             expiresAt := jsTtlExpiry ttlSeconds now }] := by
        rw [← h]
      rw [hv]
      rfl

theorem putSecret_ok_versions {s : Secret} {value : List Nat} {actor : Identity}
    {ttlSeconds : Option Nat} {now : Nat} {s' : Secret}
    (h : putSecret (some s) value actor ttlSeconds now = .ok s') :
    s'.versions.map SecretVersion.version =
      s.versions.map SecretVersion.version ++ [s.nextVersionNumber] := by
  cases hauth : allowAction actor s.tenant "writer" with
  | error e =>
    simp [putSecret, getOrRaise, hauth, Bind.bind, Except.bind] at h
  | ok u =>
    cases henf : enforcePolicy value s.policy with
    | error e =>
      simp [putSecret, getOrRaise, hauth, henf, Bind.bind, Except.bind] at h
    | ok u' =>
      simp only [putSecret, getOrRaise, hauth, henf, Bind.bind, Except.bind,
        pure, Except.pure, Except.ok.injEq] at h
      rw [← h]
      simp

theorem rotate_ok_versions {s : Secret} {actor : Identity} {now : Nat} {s' : Secret}
    (h : rotate (some s) actor now = .ok s') :
    s'.versions.map SecretVersion.version =
      s.versions.map SecretVersion.version ++ [s.nextVersionNumber] := by
  cases hauth : allowAction actor s.tenant "writer" with
  | error e =>
    simp [rotate, getOrRaise, hauth, Bind.bind, Except.bind] at h
  | ok u =>
    cases hrh : s.rotationHandler with
    | none =>
      simp [rotate, getOrRaise, hauth, hrh, Bind.bind, Except.bind] at h
    | some newValue =>
      cases henf : enforcePolicy newValue s.policy with
      | error e =>
        simp [rotate, getOrRaise, hauth, hrh, henf, Bind.bind, Except.bind] at h
      | ok u' =>
        simp only [rotate, getOrRaise, hauth, hrh, henf, Bind.bind, Except.bind,
          pure, Except.pure, Except.ok.injEq] at h
        rw [← h]
        simp

theorem fromStored_toStored_versions {s : Secret} {mk : String}
    {ivs : Nat → List Nat} {s' : Secret}
    (h : fromStoredSecret (toStoredSecret s mk ivs) mk = .ok s') :
    s'.versions.map SecretVersion.version = s.versions.map SecretVersion.version := by
  cases hmap : exceptMapList (fromStoredVersion mk) (toStoredSecret s mk ivs).versions with
  | error e =>
    simp [fromStoredSecret, hmap, Bind.bind, Except.bind] at h
  | ok out =>
    simp only [fromStoredSecret, hmap, Bind.bind, Except.bind, pure,
      Except.pure, Except.ok.injEq] at h
    obtain ⟨hver, _⟩ := exceptMapList_versions _ out hmap
    have hv : s'.versions = out := by
      rw [← h]
    rw [hv, hver, toStoredSecret_version_numbers]

/-- C2: every secret produced by create/put/rotate (possibly after store
round trips) has version numbers `1, 2, …, n` in order — gap-free,
starting at 1 — and `nextVersionNumber` is the maximum plus one. -/
theorem claim_c2_version_monotonicity (s : Secret) (h : ReachableSecret s) :
    s.versions.map SecretVersion.version = List.range' 1 s.versions.length ∧
    s.nextVersionNumber = s.versions.length + 1 := by
  induction h with
  | created name value policy actor description rotationHandler ttlSeconds
      secretId now s hok =>
    have hv := createSecret_ok_versions hok
    have hlen : s.versions.length = 1 := by
      have := congrArg List.length hv
      simpa using this
    refine ⟨?_, ?_⟩
    · rw [hv, hlen]
      rfl
    · apply nextVersionNumber_of_contiguous
      rw [hv, hlen]
      rfl
  | updated s value actor ttlSeconds now s' _ hok ih =>
    obtain ⟨hmap, hnext⟩ := ih
    have hv := putSecret_ok_versions hok
    have hlen : s'.versions.length = s.versions.length + 1 := by
      have := congrArg List.length hv
      simpa [hmap] using this
    have hmap' : s'.versions.map SecretVersion.version =
        List.range' 1 (s.versions.length + 1) := by
      rw [hv, hmap, hnext, range'_snoc]
      simp [Nat.add_comm]
    refine ⟨by rw [hmap', hlen], ?_⟩
    apply nextVersionNumber_of_contiguous
    rw [hmap', hlen]
  | rotated s actor now s' _ hok ih =>
    obtain ⟨hmap, hnext⟩ := ih
    have hv := rotate_ok_versions hok
    have hlen : s'.versions.length = s.versions.length + 1 := by
      have := congrArg List.length hv
      simpa [hmap] using this
    have hmap' : s'.versions.map SecretVersion.version =
        List.range' 1 (s.versions.length + 1) := by
      rw [hv, hmap, hnext, range'_snoc]
      simp [Nat.add_comm]
    refine ⟨by rw [hmap', hlen], ?_⟩
    apply nextVersionNumber_of_contiguous
    rw [hmap', hlen]
  | persisted s mk ivs s' _ hok ih =>
    obtain ⟨hmap, _⟩ := ih
    have hv := fromStored_toStored_versions hok
    have hlen : s'.versions.length = s.versions.length := by
      have := congrArg List.length hv
      simpa using this
    have hmap' : s'.versions.map SecretVersion.version =
        List.range' 1 s'.versions.length := by
      rw [hv, hmap, hlen]
    exact ⟨hmap', nextVersionNumber_of_contiguous s' hmap'⟩

/-- Concrete policy used by witnesses. -/
def witnessPolicy : Policy :=
  { name := "p", description := "d", rotationDays := 90, minLength := 0 }

/-- Concrete secret as produced by `createSecret` in the C2 witness. -/
def witnessSecretV1 : Secret :=
  { id := "sid", name := "n", tenant := "t", policy := witnessPolicy,
    createdAt := 5, createdBy := "alice",
    versions := [{ version := 1, createdAt := 5, value := [1],
                   checksum := checksum [1], createdBy := "alice" }] }

/-- Concrete secret as produced by the subsequent `putSecret`. -/
def witnessSecretV2 : Secret :=
  { witnessSecretV1 with
    versions := witnessSecretV1.versions ++
      [{ version := 2, createdAt := 9, value := [2, 2],
         checksum := checksum [2, 2], createdBy := "bob" }] }

/-- Witness for C2: a freshly created then updated secret has versions
`[1, 2]` and next version number 3. -/
theorem claim_c2_version_monotonicity_witness :
    witnessSecretV2.versions.map SecretVersion.version =
      List.range' 1 witnessSecretV2.versions.length ∧
    witnessSecretV2.nextVersionNumber = witnessSecretV2.versions.length + 1 :=
  claim_c2_version_monotonicity witnessSecretV2
    (ReachableSecret.updated witnessSecretV1 [2, 2] ⟨"bob", ["writer"], "t"⟩
      none 9 witnessSecretV2
      (ReachableSecret.created "n" [1] witnessPolicy
        ⟨"alice", ["admin", "writer"], "t"⟩ none none none "sid" 5
        witnessSecretV1 rfl)
      rfl)

/-! ## Authorization outcomes (claims C5 and C8) -/

/-- C5: `allowAction` reports *tenant-mismatch* first (even when the role
is also missing), then *missing-role* for a role not literally present;
each lifecycle operation demands its fixed role (create/delete `admin`,
put/rotate `writer`, get/list `reader`), and `hasRole` is plain membership
with no role implying another. -/
theorem claim_c5_role_gate :
    (∀ (actor : Identity) (tenant role : String), actor.tenant ≠ tenant →
      allowAction actor tenant role = .error .tenantMismatch) ∧
    (∀ (actor : Identity) (tenant role : String), actor.tenant = tenant →
      actor.hasRole role = false →
      allowAction actor tenant role = .error (.missingRole role)) ∧
    (∀ (actor : Identity) (role : String),
      actor.hasRole role = true ↔ role ∈ actor.roles) ∧
    (∀ (name : String) (value : List Nat) (policy : Policy) (actor : Identity)
      (description : Option String) (rotationHandler : Option (List Nat))
      (ttlSeconds : Option Nat) (secretId : String) (now : Nat),
      enforcePolicy value policy = .ok () → actor.hasRole "admin" = false →
      createSecret name value policy actor description rotationHandler
        ttlSeconds secretId now = .error (.missingRole "admin")) ∧
    (∀ (s : Secret) (value : List Nat) (actor : Identity)
      (ttlSeconds : Option Nat) (now : Nat),
      actor.tenant = s.tenant → actor.hasRole "writer" = false →
      putSecret (some s) value actor ttlSeconds now =
        .error (.missingRole "writer")) ∧
    (∀ (s : Secret) (actor : Identity) (now : Nat),
      actor.tenant = s.tenant → actor.hasRole "writer" = false →
      rotate (some s) actor now = .error (.missingRole "writer")) ∧
    (∀ (s : Secret) (actor : Identity) (now : Nat),
      actor.tenant = s.tenant → actor.hasRole "reader" = false →
      getSecret (some s) actor now = .error (.missingRole "reader")) ∧
    (∀ (actor : Identity) (tenantSecrets : List Secret),
      actor.hasRole "reader" = false →
      listSecretsOp actor tenantSecrets = .error (.missingRole "reader")) ∧
    (∀ (s : Secret) (actor : Identity),
      actor.tenant = s.tenant → actor.hasRole "admin" = false →
      deleteSecretOp (some s) actor = .error (.missingRole "admin")) := by
  have hmismatch : ∀ (actor : Identity) (tenant role : String),
      actor.tenant ≠ tenant →
      allowAction actor tenant role = .error .tenantMismatch := by
    intro actor tenant role h
    simp [allowAction, h]
  have hmissing : ∀ (actor : Identity) (tenant role : String),
      actor.tenant = tenant → actor.hasRole role = false →
      allowAction actor tenant role = .error (.missingRole role) := by
    intro actor tenant role ht hr
    simp [allowAction, ht, hr]
  refine ⟨hmismatch, hmissing, ?_, ?_, ?_, ?_, ?_, ?_, ?_⟩
  · intro actor role
    simp [Identity.hasRole]
  · intro name value policy actor description rotationHandler ttlSeconds
      secretId now henf hrole
    simp [createSecret, henf, hmissing actor actor.tenant "admin" rfl hrole,
      Bind.bind, Except.bind]
  · intro s value actor ttlSeconds now ht hrole
    simp [putSecret, getOrRaise, hmissing actor s.tenant "writer" ht hrole,
      Bind.bind, Except.bind]
  · intro s actor now ht hrole
    simp [rotate, getOrRaise, hmissing actor s.tenant "writer" ht hrole,
      Bind.bind, Except.bind]
  · intro s actor now ht hrole
    simp [getSecret, getOrRaise, hmissing actor s.tenant "reader" ht hrole,
      Bind.bind, Except.bind]
  · intro actor tenantSecrets hrole
    simp [listSecretsOp, hmissing actor actor.tenant "reader" rfl hrole,
      Bind.bind, Except.bind]
  · intro s actor ht hrole
    simp [deleteSecretOp, getOrRaise, hmissing actor s.tenant "admin" ht hrole,
      Bind.bind, Except.bind]

/-- Witness for C5 at concrete actors and a concrete secret: tenant
mismatch beats the role check, a writer-only actor cannot `get`, and an
admin-only actor cannot `put`. -/
theorem claim_c5_role_gate_witness :
    allowAction ⟨"u", [], "a"⟩ "b" "reader" = .error .tenantMismatch ∧
    getSecret (some witnessSecretV1) ⟨"u", ["writer", "admin"], "t"⟩ 0 =
      .error (.missingRole "reader") ∧
    putSecret (some witnessSecretV1) [9] ⟨"u", ["admin", "reader"], "t"⟩ none 0 =
      .error (.missingRole "writer") :=
  ⟨claim_c5_role_gate.1 ⟨"u", [], "a"⟩ "b" "reader" (by decide),
   claim_c5_role_gate.2.2.2.2.2.2.1 witnessSecretV1
     ⟨"u", ["writer", "admin"], "t"⟩ 0 rfl (by decide),
   claim_c5_role_gate.2.2.2.2.1 witnessSecretV1 [9]
     ⟨"u", ["admin", "reader"], "t"⟩ none 0 rfl (by decide)⟩

/-- Counterexample to C8: `createSecret` enforces the policy *before*
authorizing, so an actor with no roles and a too-short value receives the
*policy-violation* error, not an authorization error. -/
theorem claim_c8_counterexample :
    createSecret "n" [1, 2, 3] { name := "p", description := "d" }
        ⟨"eve", [], "t"⟩ none none none "sid" 0 = .error .policyLength ∧
    (SecretError.policyLength ≠ .missingRole "admin" ∧
     SecretError.policyLength ≠ .tenantMismatch) :=
  ⟨rfl, by decide, by decide⟩

/-- C8 (amended): `putSecret` and `rotate` authorize before validating —
an unauthorized actor receives the authorization error even when the
candidate value violates policy — while `createSecret` validates the
policy first, so there an unauthorized actor with a violating value
receives *policy-violation*. -/
theorem claim_c8_authorize_before_validate :
    (∀ (s : Secret) (value : List Nat) (actor : Identity)
      (ttlSeconds : Option Nat) (now : Nat),
      actor.tenant ≠ s.tenant →
      putSecret (some s) value actor ttlSeconds now = .error .tenantMismatch) ∧
    (∀ (s : Secret) (value : List Nat) (actor : Identity)
      (ttlSeconds : Option Nat) (now : Nat),
      actor.tenant = s.tenant → actor.hasRole "writer" = false →
      putSecret (some s) value actor ttlSeconds now =
        .error (.missingRole "writer")) ∧
    (∀ (s : Secret) (actor : Identity) (now : Nat),
      actor.tenant = s.tenant → actor.hasRole "writer" = false →
      rotate (some s) actor now = .error (.missingRole "writer")) ∧
    (∀ (name : String) (value : List Nat) (policy : Policy) (actor : Identity)
      (description : Option String) (rotationHandler : Option (List Nat))
      (ttlSeconds : Option Nat) (secretId : String) (now : Nat) (e : SecretError),
      enforcePolicy value policy = .error e →
      createSecret name value policy actor description rotationHandler
        ttlSeconds secretId now = .error e) := by
  refine ⟨?_, ?_, ?_, ?_⟩
  · intro s value actor ttlSeconds now ht
    simp [putSecret, getOrRaise, allowAction, ht, Bind.bind, Except.bind]
  · intro s value actor ttlSeconds now ht hrole
    simp [putSecret, getOrRaise, allowAction, ht, hrole, Bind.bind, Except.bind]
  · intro s actor now ht hrole
    simp [rotate, getOrRaise, allowAction, ht, hrole, Bind.bind, Except.bind]
  · intro name value policy actor description rotationHandler ttlSeconds
      secretId now e henf
    simp [createSecret, henf, Bind.bind, Except.bind]

/-- A copy of the witness secret whose policy has the default minimum
length 16, so that the empty value genuinely violates it. -/
def strictSecret : Secret :=
  { witnessSecretV1 with policy := { name := "strict", description := "d" } }

/-- Witness for the amended C8: a role-less actor in the right tenant
putting a policy-violating (too short) value still gets *missing-role*. -/
theorem claim_c8_authorize_before_validate_witness :
    putSecret (some strictSecret) [] ⟨"eve", [], "t"⟩ none 0 =
      .error (.missingRole "writer") :=
  claim_c8_authorize_before_validate.2.1 strictSecret [] ⟨"eve", [], "t"⟩
    none 0 rfl (by decide)

/-! ## TTL loss through the store (claim C3)

`StoredSecretVersion` has no `expiresAt` field, so every store round trip
erases each version's expiry, and a reloaded secret can never fail
*expired*. -/

theorem foldl_pickLatest_mem (l : List SecretVersion) (init : SecretVersion) :
    l.foldl (fun latest v => if v.version > latest.version then v else latest)
        init = init ∨
    l.foldl (fun latest v => if v.version > latest.version then v else latest)
        init ∈ l := by
  induction l generalizing init with
  | nil => exact Or.inl rfl
  | cons a as ih =>
    simp only [List.foldl_cons]
    rcases ih (if a.version > init.version then a else init) with h | h
    · rw [h]
      by_cases hc : a.version > init.version
      · rw [if_pos hc]
        exact Or.inr (List.mem_cons_self a as)
      · rw [if_neg hc]
        exact Or.inl rfl
    · exact Or.inr (List.mem_cons_of_mem a h)

theorem latestVersion_mem {s : Secret} {lv : SecretVersion}
    (h : s.latestVersion = .ok lv) : lv ∈ s.versions := by
  cases hvers : s.versions with
  | nil => simp [Secret.latestVersion, hvers] at h
  | cons first rest =>
    simp only [Secret.latestVersion, hvers, Except.ok.injEq] at h
    rcases foldl_pickLatest_mem (first :: rest) first with hmem | hmem
    · rw [← h, hmem]
      simp [hvers]
    · rw [← h]
      simpa [hvers] using hmem

theorem fromStored_expiry_none {p : StoredSecret} {mk : String} {s' : Secret}
    (h : fromStoredSecret p mk = .ok s') :
    ∀ v ∈ s'.versions, v.expiresAt = none := by
  cases hmap : exceptMapList (fromStoredVersion mk) p.versions with
  | error e =>
    simp [fromStoredSecret, hmap, Bind.bind, Except.bind] at h
  | ok out =>
    simp only [fromStoredSecret, hmap, Bind.bind, Except.bind, pure,
      Except.pure, Except.ok.injEq] at h
    have hv : s'.versions = out := by rw [← h]
    rw [hv]
    exact (exceptMapList_versions p.versions out hmap).2

/-- C3 fails on the code: after a store round trip every version has lost
its `expiresAt`, and `getSecret` consequently succeeds at *any* later
time instead of failing *expired*. -/
theorem claim_c3_ttl_dropped_by_store (s : Secret) (mk : String)
    (ivs : Nat → List Nat) (s' : Secret)
    (h : fromStoredSecret (toStoredSecret s mk ivs) mk = .ok s')
    (actor : Identity) (ht : actor.tenant = s'.tenant)
    (hrole : actor.hasRole "reader" = true) (hne : s'.versions ≠ []) (now : Nat) :
    (∀ v ∈ s'.versions, v.expiresAt = none) ∧
    getSecret (some s') actor now = .ok s' := by
  have hexp := fromStored_expiry_none h
  refine ⟨hexp, ?_⟩
  have hauth : allowAction actor s'.tenant "reader" = .ok () := by
    simp [allowAction, ht, hrole]
  cases hlat : s'.latestVersion with
  | error e =>
    exfalso
    cases hvers : s'.versions with
    | nil => exact hne hvers
    | cons first rest => simp [Secret.latestVersion, hvers] at hlat
  | ok lv =>
    have hlvexp : lv.expiresAt = none := hexp lv (latestVersion_mem hlat)
    have hnotexp : lv.isExpired now = false := by
      simp [SecretVersion.isExpired, hlvexp]
    simp [getSecret, getOrRaise, hauth, hlat, hnotexp, Bind.bind, Except.bind,
      pure, Except.pure]

/-- The concrete failing input for C3: a secret whose single version
carries a TTL expiring at time 1000. -/
def ttlSecret : Secret :=
  { id := "sid", name := "n", tenant := "t", policy := witnessPolicy,
    createdAt := 0, createdBy := "alice",
    versions := [{ version := 1, createdAt := 0, value := [5],
                   checksum := checksum [5], createdBy := "alice",
                   expiresAt := some 1000 }] }

/-- What the store hands back for `ttlSecret`: the same secret with the
expiry erased. -/
def ttlSecretReloaded : Secret :=
  { id := "sid", name := "n", tenant := "t", policy := witnessPolicy,
    createdAt := 0, createdBy := "alice",
    versions := [{ version := 1, createdAt := 0, value := [5],
                   checksum := checksum [5], createdBy := "alice" }] }

/-- Witness for C3: the round trip at master key "k" erases the expiry
and `getSecret` at time 999999 (far past the TTL) succeeds. -/
theorem claim_c3_ttl_dropped_by_store_witness :
    (∀ v ∈ ttlSecretReloaded.versions, v.expiresAt = none) ∧
    getSecret (some ttlSecretReloaded) ⟨"bob", ["reader"], "t"⟩ 999999 =
      .ok ttlSecretReloaded :=
  claim_c3_ttl_dropped_by_store ttlSecret "k" (fun _ => List.replicate 12 0)
    ttlSecretReloaded rfl ⟨"bob", ["reader"], "t"⟩ rfl (by decide) (by decide)
    999999

/-! ## ABAC evaluator (`src/access-control.ts`)

JavaScript runtime values reaching the evaluator are primitives, arrays
of primitives (role lists, allowed-value lists) and records; strict
equality (`===`) is structural on primitives and reference equality —
hence false across independently constructed values — on arrays and
records.  The regular-expression engine behind the `matches` operator is
external and is passed in as a boolean predicate. -/

/-- A primitive JavaScript value. -/
inductive JsPrim where
  | pUndefined
  | pNull
  | pStr (s : String)
  | pNum (n : Int)
  | pBool (b : Bool)
  deriving DecidableEq, Repr

/-- A JavaScript value as seen by the evaluator: a primitive, an array of
primitives, or an (opaque) object. -/
inductive JsValue where
  | prim (p : JsPrim)
  | list (xs : List JsPrim)
  | obj
  deriving DecidableEq, Repr

/-- `===` between a rule's configured value and a context value: structural
on primitives; reference equality — false for independently constructed
values — on arrays and objects. -/
def jsStrictEq : JsValue → JsValue → Bool
  | .prim p, .prim q => p == q
  | _, _ => false

/-- `AccessCondition['type']`. -/
inductive CondType where
  | time
  | ip
  | role
  | custom
  deriving DecidableEq, Repr

/-- `AccessCondition['operator']`. -/
inductive CondOp where
  | opEquals
  | opIn
  | opBetween
  | opMatches
  deriving DecidableEq, Repr

/-- `AccessCondition` of `src/access-control.ts`. -/
structure AccessCondition where
  type : CondType
  operator : CondOp
  value : JsValue
  deriving DecidableEq, Repr

/-- `AccessRule['effect']`. -/
inductive Effect where
  | allow
  | deny
  deriving DecidableEq, Repr

/-- `AccessRule` of `src/access-control.ts`. -/
structure AccessRule where
  id : String
  resource : String
  action : String
  conditions : List AccessCondition
  effect : Effect
  deriving DecidableEq, Repr

/-- `AccessRequest['context']`: optional ip, optional time (already
reduced to the evaluation hour), optional roles, optional custom record
(only its presence matters to the evaluator). -/
structure AccessRequestCtx where
  ip : Option String := none
  timeHour : Option Int := none
  roles : Option (List String) := none
  customPresent : Bool := false
  deriving DecidableEq, Repr

/-- `AccessRequest` of `src/access-control.ts`. -/
structure AccessRequest where
  subject : String
  resource : String
  action : String
  context : AccessRequestCtx
  deriving DecidableEq, Repr

/-- `getContextValue`: the hour (falling back to the evaluator's clock
`nowHour`), the ip, the role list (empty when absent), or the custom
record. -/
def getContextValue (nowHour : Int) (req : AccessRequest) : CondType → JsValue
  | .time => .prim (.pNum (req.context.timeHour.getD nowHour))
  | .ip =>
    match req.context.ip with
    | some s => .prim (.pStr s)
    | none => .prim .pUndefined
  | .role => .list ((req.context.roles.getD []).map JsPrim.pStr)
  | .custom => if req.context.customPresent then .obj else .prim .pUndefined

/-- `matchesInCondition`: the rule value must be an array; for `role`
conditions any actor role listed in it suffices; otherwise membership of
the context value. -/
def matchesInCondition (cond : AccessCondition) (contextValue : JsValue) : Bool :=
  match cond.value with
  | .list allowedValues =>
    if cond.type = .role then
      match contextValue with
      | .list roles => roles.any (fun r => allowedValues.contains r)
      | _ => false
    else
      match contextValue with
      | .prim p => allowedValues.contains p
      | _ => false
  | _ => false

/-- `matchesBetweenCondition`: the rule value must be a two-element
numeric pair and the context numeric; inclusive bounds. -/
def matchesBetweenCondition (cond : AccessCondition) (contextValue : JsValue) : Bool :=
  match cond.value, contextValue with
  | .list [.pNum lo, .pNum hi], .prim (.pNum n) => decide (lo ≤ n ∧ n ≤ hi)
  | _, _ => false

/-- `matchesRegexCondition`: both sides must be strings; the external
`RegExp` engine is the predicate `rt`. -/
def matchesRegexCondition (rt : String → String → Bool) (cond : AccessCondition)
    (contextValue : JsValue) : Bool :=
  match cond.value, contextValue with
  | .prim (.pStr pattern), .prim (.pStr s) => rt pattern s
  | _, _ => false

/-- `conditionMatches`: dispatch on the operator; any type/operator/shape
mismatch evaluates to false. -/
def conditionMatches (rt : String → String → Bool) (nowHour : Int)
    (req : AccessRequest) (cond : AccessCondition) : Bool :=
  let contextValue := getContextValue nowHour req cond.type
  match cond.operator with
  | .opEquals => jsStrictEq contextValue cond.value
  | .opIn => matchesInCondition cond contextValue
  | .opBetween => matchesBetweenCondition cond contextValue
  | .opMatches => matchesRegexCondition rt cond contextValue

/-- `ruleMatches`: resource and action match literally or by `*`, and
every condition matches. -/
def ruleMatches (rt : String → String → Bool) (nowHour : Int)
    (req : AccessRequest) (rule : AccessRule) : Bool :=
  if rule.resource ≠ "*" && rule.resource ≠ req.resource then false
  else if rule.action ≠ "*" && rule.action ≠ req.action then false
  else rule.conditions.all (conditionMatches rt nowHour req)

/-- The scan of `evaluateAccess`: a matching deny short-circuits to
false; a matching allow sets the running decision to true and the scan
continues. -/
def evalLoop (rt : String → String → Bool) (nowHour : Int) (req : AccessRequest) :
    List AccessRule → Bool → Bool
  | [], acc => acc
  | rule :: rest, acc =>
    if ruleMatches rt nowHour req rule then
      match rule.effect with
      | .allow => evalLoop rt nowHour req rest true
      | .deny => false
    else evalLoop rt nowHour req rest acc

/-- `AccessControlManager.evaluateAccess`: default deny. -/
def evaluateAccess (rt : String → String → Bool) (nowHour : Int)
    (rules : List AccessRule) (req : AccessRequest) : Bool :=
  evalLoop rt nowHour req rules false

theorem evalLoop_deny {rt : String → String → Bool} {nowHour : Int}
    {req : AccessRequest} :
    ∀ (rules : List AccessRule) (acc : Bool),
      (∃ r ∈ rules, ruleMatches rt nowHour req r = true ∧ r.effect = .deny) →
      evalLoop rt nowHour req rules acc = false := by
  intro rules
  induction rules with
  | nil =>
    intro acc h
    obtain ⟨r, hr, _⟩ := h
    simp at hr
  | cons rule rest ih =>
    intro acc h
    by_cases hm : ruleMatches rt nowHour req rule = true
    · cases heff : rule.effect with
      | deny => simp [evalLoop, hm, heff]
      | allow =>
        obtain ⟨r, hr, hrm, hrd⟩ := h
        rcases List.mem_cons.mp hr with rfl | hr'
        · rw [heff] at hrd
          cases hrd
        · simp only [evalLoop, hm, if_true, heff]
          exact ih true ⟨r, hr', hrm, hrd⟩
    · obtain ⟨r, hr, hrm, hrd⟩ := h
      rcases List.mem_cons.mp hr with rfl | hr'
      · exact absurd hrm hm
      · simp only [evalLoop, hm, if_false, Bool.false_eq_true]
        exact ih acc ⟨r, hr', hrm, hrd⟩

theorem evalLoop_no_match {rt : String → String → Bool} {nowHour : Int}
    {req : AccessRequest} :
    ∀ (rules : List AccessRule) (acc : Bool),
      (∀ r ∈ rules, ruleMatches rt nowHour req r = false) →
      evalLoop rt nowHour req rules acc = acc := by
  intro rules
  induction rules with
  | nil => intro acc _; rfl
  | cons rule rest ih =>
    intro acc h
    have hm : ruleMatches rt nowHour req rule = false :=
      h rule (List.mem_cons_self rule rest)
    simp only [evalLoop, hm, Bool.false_eq_true, if_false]
    exact ih acc (fun r hr => h r (List.mem_cons_of_mem rule hr))

theorem evalLoop_true_of_no_deny {rt : String → String → Bool} {nowHour : Int}
    {req : AccessRequest} :
    ∀ (rules : List AccessRule),
      (∀ r ∈ rules, ruleMatches rt nowHour req r = true → r.effect ≠ .deny) →
      evalLoop rt nowHour req rules true = true := by
  intro rules
  induction rules with
  | nil => intro _; rfl
  | cons rule rest ih =>
    intro h
    by_cases hm : ruleMatches rt nowHour req rule = true
    · cases heff : rule.effect with
      | deny => exact absurd heff (h rule (List.mem_cons_self rule rest) hm)
      | allow =>
        simp only [evalLoop, hm, if_true, heff]
        exact ih (fun r hr => h r (List.mem_cons_of_mem rule hr))
    · simp only [evalLoop, hm, Bool.false_eq_true, if_false]
      exact ih (fun r hr => h r (List.mem_cons_of_mem rule hr))

theorem evalLoop_allow_no_deny {rt : String → String → Bool} {nowHour : Int}
    {req : AccessRequest} :
    ∀ (rules : List AccessRule) (acc : Bool),
      (∃ r ∈ rules, ruleMatches rt nowHour req r = true ∧ r.effect = .allow) →
      (∀ r ∈ rules, ruleMatches rt nowHour req r = true → r.effect ≠ .deny) →
      evalLoop rt nowHour req rules acc = true := by
  intro rules
  induction rules with
  | nil =>
    intro acc h _
    obtain ⟨r, hr, _⟩ := h
    simp at hr
  | cons rule rest ih =>
    intro acc h hnd
    by_cases hm : ruleMatches rt nowHour req rule = true
    · cases heff : rule.effect with
      | deny => exact absurd heff (hnd rule (List.mem_cons_self rule rest) hm)
      | allow =>
        simp only [evalLoop, hm, if_true, heff]
        exact evalLoop_true_of_no_deny rest
          (fun r hr => hnd r (List.mem_cons_of_mem rule hr))
    · obtain ⟨r, hr, hrm, hra⟩ := h
      rcases List.mem_cons.mp hr with rfl | hr'
      · exact absurd hrm hm
      · simp only [evalLoop, hm, Bool.false_eq_true, if_false]
        exact ih acc ⟨r, hr', hrm, hra⟩
          (fun r' hr'' => hnd r' (List.mem_cons_of_mem rule hr''))

/-- C4: a matching deny rule forces a deny regardless of position; with no
matching rule the decision is deny; with a matching allow rule and no
matching deny rule the decision is allow. -/
theorem claim_c4_abac_deny_wins (rt : String → String → Bool) (nowHour : Int)
    (rules : List AccessRule) (req : AccessRequest) :
    ((∃ r ∈ rules, ruleMatches rt nowHour req r = true ∧ r.effect = .deny) →
      evaluateAccess rt nowHour rules req = false) ∧
    ((∀ r ∈ rules, ruleMatches rt nowHour req r = false) →
      evaluateAccess rt nowHour rules req = false) ∧
    ((∃ r ∈ rules, ruleMatches rt nowHour req r = true ∧ r.effect = .allow) →
     (∀ r ∈ rules, ruleMatches rt nowHour req r = true → r.effect ≠ .deny) →
      evaluateAccess rt nowHour rules req = true) :=
  ⟨fun h => evalLoop_deny rules false h,
   fun h => evalLoop_no_match rules false h,
   fun hallow hnd => evalLoop_allow_no_deny rules false hallow hnd⟩

/-- The spec's ABAC precedence scenario: a blanket allow rule registered
before a targeted deny rule. -/
def abacRules : List AccessRule :=
  [{ id := "r1", resource := "*", action := "*", conditions := [],
     effect := .allow },
   { id := "r2", resource := "secret:db", action := "read", conditions := [],
     effect := .deny }]

/-- The request `read` on `secret:db`. -/
def abacRequest : AccessRequest :=
  { subject := "u", resource := "secret:db", action := "read", context := {} }

/-- Witness for C4: on the scenario rules the deny wins although the
allow matched first; with no matching rule the default is deny; with only
the allow rule the decision is allow. -/
theorem claim_c4_abac_deny_wins_witness :
    evaluateAccess (fun _ _ => false) 12 abacRules abacRequest = false ∧
    evaluateAccess (fun _ _ => false) 12 [] abacRequest = false ∧
    evaluateAccess (fun _ _ => false) 12 (abacRules.take 1) abacRequest = true :=
  ⟨(claim_c4_abac_deny_wins (fun _ _ => false) 12 abacRules abacRequest).1
     ⟨abacRules.get ⟨1, by decide⟩, by decide, by decide, by decide⟩,
   (claim_c4_abac_deny_wins (fun _ _ => false) 12 [] abacRequest).2.1
     (by intro r hr; simp at hr),
   (claim_c4_abac_deny_wins (fun _ _ => false) 12 (abacRules.take 1)
       abacRequest).2.2
     ⟨abacRules.get ⟨0, by decide⟩, by decide, by decide, by decide⟩
     (by decide)⟩

/-! ## Envelope key manager (`AdvancedEncryptionManager`)

The key map and rotation bookkeeping are embedded exactly (JavaScript
`Map` via `jsMapGet`/`jsMapSet`); the scrypt KDF and the block cipher are
external `node:crypto` primitives, modelled as before.  Note this class
uses `createCipheriv`/`createDecipheriv` without any tag handling, i.e. a
raw keystream cipher. -/

/-- `EncryptionKey` of the envelope layer; `key` is the derived DEK. -/
structure EncryptionKey where
  id : String
  key : Nat
  createdAt : Nat
  expiresAt : Option Nat := none
  isActive : Bool
  deriving DecidableEq, Repr

/-- `EnvelopeEncryptionConfig`. -/
structure EnvelopeEncryptionConfig where
  masterKey : String
  keyRotationDays : Nat
  keySize : Nat
  algorithm : String
  deriving DecidableEq, Repr

/-- Modelled from the spec: the scrypt password-based KDF (external),
keyed by master key, salt (the key id) and key size. -/
def scryptModel (masterKey salt : String) (keySize : Nat) : Nat :=
  Nat.pair (sha256Model masterKey) (Nat.pair (sha256Model salt) keySize)

/-- The mutable state of `AdvancedEncryptionManager`: the key map and the
current (active) key id. -/
structure EncryptionManagerState where
  keys : List (String × EncryptionKey)
  currentKeyId : String
  deriving Repr

/-- `AdvancedEncryptionManager.encrypt`: look up the current key (failing
when absent) and encrypt under it with a fresh IV (passed explicitly);
returns the ciphertext and the key id used. -/
def emEncrypt (st : EncryptionManagerState) (plaintext iv : List Nat) :
    Except CryptoError (List Nat × String) :=
  match jsMapGet st.keys st.currentKeyId with
  | none => .error .noActiveKey
  | some currentKey =>
    .ok (xorKeystream currentKey.key (encodeList iv) 0 plaintext, st.currentKeyId)

/-- `AdvancedEncryptionManager.decrypt`: look up the named key — possibly
retired — and decrypt; an unknown id is the *key-not-found* error. -/
def emDecrypt (st : EncryptionManagerState) (ciphertext : List Nat)
    (keyId : String) (iv : List Nat) : Except CryptoError (List Nat) :=
  match jsMapGet st.keys keyId with
  | none => .error .keyNotFound
  | some key => .ok (xorKeystream key.key (encodeList iv) 0 ciphertext)

/-- The freshly derived key record inserted by `rotateKey`. -/
def rotatedNewKey (cfg : EnvelopeEncryptionConfig) (newKeyId : String)
    (now : Nat) : EncryptionKey :=
  { id := newKeyId, key := scryptModel cfg.masterKey newKeyId cfg.keySize,
    createdAt := now, isActive := true }

/-- `AdvancedEncryptionManager.rotateKey`: insert a freshly derived key
(id generated externally), mark it active, flip the previous current key
to inactive while keeping it in the map, and switch the current id. -/
def rotateKey (st : EncryptionManagerState) (cfg : EnvelopeEncryptionConfig)
    (newKeyId : String) (now : Nat) : EncryptionManagerState :=
  let keys1 := jsMapSet st.keys newKeyId (rotatedNewKey cfg newKeyId now)
  let keys2 :=
    match jsMapGet keys1 st.currentKeyId with
    | some oldKey => jsMapSet keys1 st.currentKeyId { oldKey with isActive := false }
    | none => keys1
  { keys := keys2, currentKeyId := newKeyId }

/-- Any number of successive rotations, each with its generated id and
timestamp. -/
def rotateAll (cfg : EnvelopeEncryptionConfig) :
    EncryptionManagerState → List (String × Nat) → EncryptionManagerState
  | st, [] => st
  | st, p :: rest => rotateAll cfg (rotateKey st cfg p.1 p.2) rest

theorem rotateKey_preserves_key_bytes (st : EncryptionManagerState)
    (cfg : EnvelopeEncryptionConfig) (newKeyId : String) (now : Nat)
    (kid : String) (hne : newKeyId ≠ kid) :
    (jsMapGet (rotateKey st cfg newKeyId now).keys kid).map (·.key) =
      (jsMapGet st.keys kid).map (·.key) := by
  unfold rotateKey
  have hset1 : ∀ k',
      jsMapGet (jsMapSet st.keys newKeyId (rotatedNewKey cfg newKeyId now)) k' =
      if k' = newKeyId then some (rotatedNewKey cfg newKeyId now)
      else jsMapGet st.keys k' :=
    fun k' => jsMapGet_jsMapSet st.keys newKeyId k' _
  cases hold : jsMapGet
      (jsMapSet st.keys newKeyId (rotatedNewKey cfg newKeyId now))
      st.currentKeyId with
  | none =>
    simp only [hold]
    rw [hset1 kid, if_neg (fun hh : kid = newKeyId => hne hh.symm)]
  | some oldKey =>
    simp only [hold]
    rw [jsMapGet_jsMapSet]
    by_cases hcur : kid = st.currentKeyId
    · rw [if_pos hcur]
      have : jsMapGet st.keys kid = some oldKey := by
        rw [← hcur] at hold
        rw [hset1 kid, if_neg (fun hh : kid = newKeyId => hne hh.symm)] at hold
        exact hold
      rw [this]
      rfl
    · rw [if_neg hcur]
      rw [hset1 kid, if_neg (fun hh : kid = newKeyId => hne hh.symm)]

theorem rotateAll_preserves_key_bytes (cfg : EnvelopeEncryptionConfig)
    (kid : String) :
    ∀ (ids : List (String × Nat)) (st : EncryptionManagerState),
      (∀ q ∈ ids, q.1 ≠ kid) →
      (jsMapGet (rotateAll cfg st ids).keys kid).map (·.key) =
        (jsMapGet st.keys kid).map (·.key) := by
  intro ids
  induction ids with
  | nil => intro st _; rfl
  | cons p rest ih =>
    intro st h
    have hp : p.1 ≠ kid := h p (List.mem_cons_self p rest)
    calc (jsMapGet (rotateAll cfg (rotateKey st cfg p.1 p.2) rest).keys kid).map (·.key)
        = (jsMapGet (rotateKey st cfg p.1 p.2).keys kid).map (·.key) :=
          ih (rotateKey st cfg p.1 p.2) (fun q hq => h q (List.mem_cons_of_mem p hq))
      _ = (jsMapGet st.keys kid).map (·.key) :=
          rotateKey_preserves_key_bytes st cfg p.1 p.2 kid hp

/-- C6: a ciphertext produced under the active key still decrypts to the
original plaintext after any number of key rotations (with fresh
generated ids), the previously active key being retained inactive; and
decryption under an id absent from the key map fails *key-not-found*. -/
theorem claim_c6_envelope_rotation :
    (∀ (st : EncryptionManagerState) (cfg : EnvelopeEncryptionConfig)
       (plaintext iv ct : List Nat) (kid : String) (ids : List (String × Nat)),
      emEncrypt st plaintext iv = .ok (ct, kid) →
      (∀ q ∈ ids, q.1 ≠ kid) →
      emDecrypt (rotateAll cfg st ids) ct kid iv = .ok plaintext) ∧
    (∀ (st : EncryptionManagerState) (cfg : EnvelopeEncryptionConfig)
       (newKeyId : String) (now : Nat) (k : EncryptionKey),
      newKeyId ≠ st.currentKeyId →
      jsMapGet st.keys st.currentKeyId = some k →
      jsMapGet (rotateKey st cfg newKeyId now).keys st.currentKeyId =
        some { k with isActive := false }) ∧
    (∀ (st : EncryptionManagerState) (ct iv : List Nat) (kid : String),
      jsMapGet st.keys kid = none →
      emDecrypt st ct kid iv = .error .keyNotFound) := by
  refine ⟨?_, ?_, ?_⟩
  · intro st cfg plaintext iv ct kid ids henc hfresh
    cases hcur : jsMapGet st.keys st.currentKeyId with
    | none => simp [emEncrypt, hcur] at henc
    | some currentKey =>
      simp only [emEncrypt, hcur, Except.ok.injEq, Prod.mk.injEq] at henc
      obtain ⟨hct, hkid⟩ := henc
      subst hkid
      have hpres := rotateAll_preserves_key_bytes cfg st.currentKeyId ids st hfresh
      rw [hcur] at hpres
      cases hget : jsMapGet (rotateAll cfg st ids).keys st.currentKeyId with
      | none => rw [hget] at hpres; simp at hpres
      | some k' =>
        rw [hget] at hpres
        have hkey : k'.key = currentKey.key := by
          have := hpres
          simp only [Option.map] at this
          exact Option.some.inj this
        simp only [emDecrypt, hget, hkey, ← hct]
        rw [xorKeystream_involutive]
  · intro st cfg newKeyId now k hne hcur
    unfold rotateKey
    have hset1 : jsMapGet
        (jsMapSet st.keys newKeyId (rotatedNewKey cfg newKeyId now))
        st.currentKeyId = some k := by
      rw [jsMapGet_jsMapSet, if_neg (fun hh : st.currentKeyId = newKeyId => hne hh.symm)]
      exact hcur
    simp only [hset1]
    rw [jsMapGet_jsMapSet, if_pos rfl]
  · intro st ct iv kid hget
    simp [emDecrypt, hget]

/-- Concrete envelope-manager state for the C6 witness. -/
def envelopeState : EncryptionManagerState :=
  { keys := [("k1", { id := "k1", key := 42, createdAt := 0, isActive := true })],
    currentKeyId := "k1" }

/-- Concrete envelope configuration for the C6 witness. -/
def envelopeConfig : EnvelopeEncryptionConfig :=
  { masterKey := "m", keyRotationDays := 90, keySize := 32,
    algorithm := "aes-256-gcm" }

/-- Witness for C6: two rotations later the old ciphertext still
decrypts, and an unknown key id is rejected. -/
theorem claim_c6_envelope_rotation_witness :
    emDecrypt (rotateAll envelopeConfig envelopeState [("k2", 5), ("k3", 6)])
        (xorKeystream 42 (encodeList [3]) 0 [7, 9]) "k1" [3] = .ok [7, 9] ∧
    emDecrypt envelopeState [1] "zz" [0] = .error .keyNotFound :=
  ⟨claim_c6_envelope_rotation.1 envelopeState envelopeConfig [7, 9] [3]
     (xorKeystream 42 (encodeList [3]) 0 [7, 9]) "k1" [("k2", 5), ("k3", 6)]
     rfl (by decide),
   claim_c6_envelope_rotation.2.2 envelopeState [1] [0] "zz" rfl⟩

/-! ## Rotation scheduler (`src/rotation.ts`)

One registered schedule whose underlying `manager.rotate` call fails is
modelled through a scheduler pass: `shouldRotate` gates the attempt, and
`handleRotationFailure` updates the retry bookkeeping.  The local-time
string for the rotation window (produced externally by
`toLocaleTimeString` in the window's timezone) is an explicit argument. -/

/-- `RotationSchedule` of `src/rotation.ts`; the window is
`(start, end, timezone)` with `HH:MM` times. -/
structure RotationSchedule where
  secretId : String
  nextRotation : Nat
  rotationWindow : Option (String × String × String) := none
  maxRetries : Nat
  retryCount : Nat
  lastRotationAttempt : Option Nat := none
  lastRotationError : Option String := none
  deriving DecidableEq, Repr

/-- `RotationScheduler.shouldRotate`: not before `nextRotation`; inside
the window when one is set (`start < end` names a same-day window,
otherwise it wraps midnight).  Note it never consults `retryCount`. -/
def shouldRotate (schedule : RotationSchedule) (now : Nat)
    (currentTime : String) : Bool :=
  if now < schedule.nextRotation then false
  else
    match schedule.rotationWindow with
    | none => true
    | some w =>
      if w.1 < w.2.1 then
        decide (w.1 ≤ currentTime) && decide (currentTime ≤ w.2.1)
      else
        decide (w.1 ≤ currentTime) || decide (currentTime ≤ w.2.1)

/-- `RotationScheduler.handleRotationFailure`: bump `retryCount`, record
the attempt and the error; below `maxRetries` reschedule with exponential
backoff `2^retryCount` minutes, otherwise leave the schedule as is and
surface a failure notification (second component). -/
def handleRotationFailure (schedule : RotationSchedule)
    (errorMessage : String) (now : Nat) : RotationSchedule × Bool :=
  let s1 := { schedule with
    retryCount := schedule.retryCount + 1,
    lastRotationAttempt := some now,
    lastRotationError := some errorMessage }
  if s1.retryCount < s1.maxRetries then
    ({ s1 with nextRotation := now + 2 ^ s1.retryCount * 60000 }, false)
  else
    (s1, true)

/-- One `checkAndRotateSecrets` pass over a single registered schedule
whose rotation attempt fails (`maxConcurrentRotations ≥ 1`): returns the
updated schedule, whether a rotation was attempted, and whether a failure
notification was surfaced. -/
def passOnFailingSchedule (schedule : RotationSchedule) (now : Nat)
    (currentTime errorMessage : String) : RotationSchedule × Bool × Bool :=
  if shouldRotate schedule now currentTime then
    let r := handleRotationFailure schedule errorMessage now
    (r.1, true, r.2)
  else (schedule, false, false)

/-- Counterexample to C9: a schedule that has already consumed all its
retries (`retryCount = maxRetries = 3`, `nextRotation` in the past) is
still due — `shouldRotate` never consults `retryCount` — so a later pass
attempts the rotation again. -/
theorem claim_c9_counterexample :
    (passOnFailingSchedule
        { secretId := "s1", nextRotation := 0, maxRetries := 3, retryCount := 3 }
        1000 "12:00:00" "boom").2.1 = true ∧
    shouldRotate
        { secretId := "s1", nextRotation := 0, maxRetries := 3, retryCount := 3 }
        1000 "12:00:00" = true :=
  ⟨rfl, rfl⟩

/-- C9 (amended): once `retryCount + 1` has reached `maxRetries`, a
failing pass no longer applies the backoff reschedule (`nextRotation` is
left unchanged) and surfaces a failure notification each time; the
schedule therefore stays due, and — for window-free schedules — every
later pass attempts the rotation again. -/
theorem claim_c9_retries_never_stop (sch : RotationSchedule) (now : Nat)
    (currentTime errorMessage : String)
    (hmax : sch.maxRetries ≤ sch.retryCount + 1)
    (hdue : shouldRotate sch now currentTime = true) :
    (passOnFailingSchedule sch now currentTime errorMessage).2.1 = true ∧
    (passOnFailingSchedule sch now currentTime errorMessage).1.nextRotation =
      sch.nextRotation ∧
    (passOnFailingSchedule sch now currentTime errorMessage).2.2 = true ∧
    (sch.rotationWindow = none → ∀ (later : Nat) (ct : String), now ≤ later →
      shouldRotate (passOnFailingSchedule sch now currentTime errorMessage).1
        later ct = true) := by
  have hnotlt : ¬ now < sch.nextRotation := by
    intro hlt
    rw [shouldRotate, if_pos hlt] at hdue
    cases hdue
  have hfail : handleRotationFailure sch errorMessage now =
      ({ sch with
        retryCount := sch.retryCount + 1,
        lastRotationAttempt := some now,
        lastRotationError := some errorMessage }, true) := by
    rw [handleRotationFailure]
    rw [if_neg]
    show ¬ sch.retryCount + 1 < sch.maxRetries
    omega
  have hpass : passOnFailingSchedule sch now currentTime errorMessage =
      ({ sch with
        retryCount := sch.retryCount + 1,
        lastRotationAttempt := some now,
        lastRotationError := some errorMessage }, true, true) := by
    rw [passOnFailingSchedule, if_pos hdue, hfail]
  refine ⟨by rw [hpass], by rw [hpass], by rw [hpass], ?_⟩
  intro hwin later ct hle
  rw [hpass]
  show shouldRotate _ later ct = true
  rw [shouldRotate]
  rw [if_neg (by simp; omega)]
  simp [hwin]

/-- Witness for the amended C9: the exhausted schedule from the
counterexample keeps surfacing failure notifications and stays due at
time 2000. -/
theorem claim_c9_retries_never_stop_witness :
    (passOnFailingSchedule
        { secretId := "s1", nextRotation := 0, maxRetries := 3, retryCount := 3 }
        1000 "12:00:00" "boom").2.2 = true ∧
    shouldRotate
        (passOnFailingSchedule
          { secretId := "s1", nextRotation := 0, maxRetries := 3, retryCount := 3 }
          1000 "12:00:00" "boom").1 2000 "03:00:00" = true := by
  have h := claim_c9_retries_never_stop
    { secretId := "s1", nextRotation := 0, maxRetries := 3, retryCount := 3 }
    1000 "12:00:00" "boom" (by decide) rfl
  exact ⟨h.2.2.1, h.2.2.2 rfl 2000 "03:00:00" (by decide)⟩

/-! ## Session manager (`src/access-control.ts`) -/

/-- `Session` of `src/access-control.ts`. -/
structure Session where
  id : String
  identity : Identity
  createdAt : Nat
  lastActivity : Nat
  expiresAt : Nat
  metadata : List (String × String) := []
  isActive : Bool
  deriving DecidableEq, Repr

/-- `SessionManager.invalidateSession`: flip `isActive` to false but keep
the record for audit. -/
def invalidateSession (sessions : List (String × Session)) (sessionId : String) :
    List (String × Session) :=
  match jsMapGet sessions sessionId with
  | some s => jsMapSet sessions sessionId { s with isActive := false }
  | none => sessions

/-- `SessionManager.getSession`: absent ids yield nothing; an expired
record is invalidated and yields nothing; otherwise `lastActivity` is
refreshed and the record returned — `isActive` is never consulted. -/
def getSession (sessions : List (String × Session)) (sessionId : String)
    (now : Nat) : Option Session × List (String × Session) :=
  match jsMapGet sessions sessionId with
  | none => (none, sessions)
  | some s =>
    if s.expiresAt < now then (none, invalidateSession sessions sessionId)
    else
      (some { s with lastActivity := now },
       jsMapSet sessions sessionId { s with lastActivity := now })

/-- C10: after `invalidateSession`, `getSession` still returns the (now
inactive) record with `lastActivity` refreshed whenever `now` is before
`expiresAt`; and `getSession` returns nothing only for absent or expired
records — never because of invalidation alone. -/
theorem claim_c10_invalidation_keeps_record :
    (∀ (sessions : List (String × Session)) (sid : String) (s : Session)
       (now : Nat),
      jsMapGet sessions sid = some s → now < s.expiresAt →
      (getSession (invalidateSession sessions sid) sid now).1 =
        some { s with isActive := false, lastActivity := now }) ∧
    (∀ (sessions : List (String × Session)) (sid : String) (now : Nat),
      (getSession sessions sid now).1 = none →
      jsMapGet sessions sid = none ∨
      ∃ s, jsMapGet sessions sid = some s ∧ s.expiresAt < now) := by
  constructor
  · intro sessions sid s now hget hlt
    have hinv : invalidateSession sessions sid =
        jsMapSet sessions sid { s with isActive := false } := by
      rw [invalidateSession, hget]
    have hget' : jsMapGet (invalidateSession sessions sid) sid =
        some { s with isActive := false } := by
      rw [hinv, jsMapGet_jsMapSet, if_pos rfl]
    simp only [getSession, hget']
    rw [if_neg (by simp; omega)]
  · intro sessions sid now h
    cases hget : jsMapGet sessions sid with
    | none => exact Or.inl rfl
    | some s =>
      by_cases hexp : s.expiresAt < now
      · exact Or.inr ⟨s, rfl, hexp⟩
      · exfalso
        simp only [getSession, hget] at h
        rw [if_neg hexp] at h
        simp at h

/-- Concrete session table for the C10 witness. -/
def sessionTable : List (String × Session) :=
  [("sid1", { id := "sid1", identity := ⟨"alice", ["reader"], "t"⟩,
              createdAt := 0, lastActivity := 0, expiresAt := 3600000,
              isActive := true })]

/-- Witness for C10: the invalidated session is still returned before its
expiry, inactive and with refreshed activity. -/
theorem claim_c10_invalidation_keeps_record_witness :
    (getSession (invalidateSession sessionTable "sid1") "sid1" 5000).1 =
      some { id := "sid1", identity := ⟨"alice", ["reader"], "t"⟩,
             createdAt := 0, lastActivity := 5000, expiresAt := 3600000,
             isActive := false } :=
  claim_c10_invalidation_keeps_record.1 sessionTable "sid1"
    { id := "sid1", identity := ⟨"alice", ["reader"], "t"⟩, createdAt := 0,
      lastActivity := 0, expiresAt := 3600000, isActive := true }
    5000 rfl (by decide)

end Secrets
